import Mathlib

/-!
Verification of the WDM optical asymmetric link simulation script
(`wdm-opt-asym.cc`) against its natural-language specification.

The script defines a custom `OpticalErrorModel` (per-bit Bernoulli corruption
driven by a bit-error-rate) attached to two point-to-point "wavelength"
channels, and a post-run reduction of FlowMonitor statistics to throughput
and average delay.

Shallow embedding choices:
- C++ `double` values (bit-error-rate, random draws, times) are modelled as ℚ
  with exact comparison; random draws are an explicit infinite stream
  `Nat → ℚ` together with a cursor position, so one `GetValue ()` call reads
  `stream pos` and advances the cursor to `pos + 1`.
- `uint32_t` arithmetic is `Nat` with an explicit `% 2^32` where the source
  can overflow (`p->GetSize () * 8`).
- `DoCorrupt` returns both its boolean decision and the final cursor
  position, making the number of consumed draws observable.
-/

/-- State of an `OpticalErrorModel` instance: the configured bit-error-rate
`m_ber` and signal-to-noise ratio `m_snrDb` (both C++ `double`, modelled as ℚ).
The per-instance random variable is modelled separately as a stream/cursor
pair passed to `DoCorrupt`. -/
structure OpticalErrorModel where
  m_ber : ℚ
  m_snrDb : ℚ
  deriving DecidableEq

/-- Constructor defaults: `m_ber (1e-8)`, `m_snrDb (30.0)`. -/
def defaultModel : OpticalErrorModel :=
  { m_ber := 1 / 100000000, m_snrDb := 30 }

/-- `void SetBer (double ber) { m_ber = ber; }` — stores the value with no
validation. -/
def SetBer (m : OpticalErrorModel) (ber : ℚ) : OpticalErrorModel :=
  { m with m_ber := ber }

/-- `void SetSnrDb (double snrDb) { m_snrDb = snrDb; }` -/
def SetSnrDb (m : OpticalErrorModel) (snrDb : ℚ) : OpticalErrorModel :=
  { m with m_snrDb := snrDb }

/-- `double GetBer () const { return m_ber; }` -/
def GetBer (m : OpticalErrorModel) : ℚ := m.m_ber

/-- `double GetSnrDb () const { return m_snrDb; }` -/
def GetSnrDb (m : OpticalErrorModel) : ℚ := m.m_snrDb

/-- `uint32_t bits = p->GetSize () * 8;` — the multiplication is performed in
unsigned 32-bit arithmetic, hence the `% 2^32`. -/
def bitsOf (sizeBytes : Nat) : Nat := (sizeBytes * 8) % 2 ^ 32

/-- The loop body of `DoCorrupt`: with `n` trials remaining and the random
cursor at `pos`, draw one value per trial in sequence; on the first draw
strictly below `ber` return `true` immediately (the C++ `return true;` inside
the loop), otherwise fall through to `false` after the loop.  The second
component is the final cursor position (draws consumed = final − initial). -/
def corruptLoop (ber : ℚ) (stream : Nat → ℚ) : Nat → Nat → Bool × Nat
  | pos, 0 => (false, pos)
  | pos, n + 1 =>
    if stream pos < ber then (true, pos + 1)
    else corruptLoop ber stream (pos + 1) n

/-- `bool DoCorrupt (Ptr<Packet> p)`: iterate over `bits = GetSize () * 8`
(32-bit) trials, drawing `m_random->GetValue ()` each time; corrupt (return
`true`) as soon as one draw is `< m_ber`, else return `false`. -/
def DoCorrupt (m : OpticalErrorModel) (sizeBytes : Nat) (stream : Nat → ℚ)
    (pos : Nat) : Bool × Nat :=
  corruptLoop m.m_ber stream pos (bitsOf sizeBytes)

/-- The fields of `FlowMonitor::FlowStats` that the post-run reduction reads.
Counters are `Nat` (`uint32`/`uint64` in ns-3), byte counts `Nat`, and times
(seconds, obtained through `GetSeconds ()`) are ℚ. -/
structure FlowStats where
  txPackets : Nat
  rxPackets : Nat
  lostPackets : Nat
  rxBytes : Nat
  delaySum : ℚ
  timeFirstTx : ℚ
  timeLastRx : ℚ
  deriving DecidableEq

/-- `double duration = (timeLastRx - timeFirstTx);` -/
def flowDuration (f : FlowStats) : ℚ := f.timeLastRx - f.timeFirstTx

/-- `throughput = (rxBytes * 8.0 / duration) / 1e6` guarded by
`if (duration > 0)`, else the initial `0.0`. -/
def throughputMbps (f : FlowStats) : ℚ :=
  if 0 < flowDuration f then ((f.rxBytes : ℚ) * 8 / flowDuration f) / 1000000
  else 0

/-- `avgDelay = delaySum.GetSeconds () / rxPackets` guarded by
`if (rxPackets > 0)`, else the initial `0.0`. -/
def avgDelaySeconds (f : FlowStats) : ℚ :=
  if 0 < f.rxPackets then f.delaySum / (f.rxPackets : ℚ)
  else 0

/-- The report loop: one (throughput, avgDelay) line per flow, in flow order. -/
def simulationReport (flows : List FlowStats) : List (ℚ × ℚ) :=
  flows.map fun f => (throughputMbps f, avgDelaySeconds f)

/-- The concrete reduction test vector from the specification:
txPackets=100, rxPackets=100, rxBytes=102400, delaySum=20.0 s,
timeFirstTx=1.0 s, timeLastRx=1.2 s. -/
def exampleFlow : FlowStats :=
  { txPackets := 100, rxPackets := 100, lostPackets := 0, rxBytes := 102400
    delaySum := 20, timeFirstTx := 1, timeLastRx := 12 / 10 }

/-- Modelled from the spec: the claimed shared-stream semantics, in which the
two `OpticalErrorModel` instances draw from ONE common sequential stream —
each draw by either instance consumes the next value of that single stream,
so the second invocation starts at the cursor position where the first one
stopped.  (This definition follows the spec's words, for comparison with the
source's per-instance sources; the source gives each instance its own
`UniformRandomVariable`.) -/
def specSharedStreamRun (m0 m1 : OpticalErrorModel) (s0 s1 : Nat)
    (stream : Nat → ℚ) : Bool × Bool :=
  let r0 := DoCorrupt m0 s0 stream 0
  let r1 := DoCorrupt m1 s1 stream r0.2
  (r0.1, r1.1)

/-- The source's semantics: each `OpticalErrorModel` constructor runs
`m_random (CreateObject<UniformRandomVariable> ())`, so each of the two
instances created in `main` holds its own random variable; each instance's
draws advance only its own stream, starting from its own cursor. -/
def separateStreamRun (m0 m1 : OpticalErrorModel) (s0 s1 : Nat)
    (stream0 stream1 : Nat → ℚ) : Bool × Bool :=
  ((DoCorrupt m0 s0 stream0 0).1, (DoCorrupt m1 s1 stream1 0).1)

/-- A concrete stream used to separate the two semantics: first draw 0,
every later draw 9/10. -/
def streamS : Nat → ℚ := fun n => if n = 0 then 0 else 9 / 10

-- ------------------ core lemmas about the corruption loop ------------------

theorem corruptLoop_true_iff (ber : ℚ) (stream : Nat → ℚ) :
    ∀ (n pos : Nat),
      (corruptLoop ber stream pos n).1 = true ↔
        ∃ i, i < n ∧ stream (pos + i) < ber := by
  intro n
  induction n with
  | zero =>
    intro pos
    simp [corruptLoop]
  | succ k ih =>
    intro pos
    by_cases h : stream pos < ber
    · simp only [corruptLoop, if_pos h]
      constructor
      · intro _
        exact ⟨0, Nat.succ_pos k, by simpa using h⟩
      · intro _
        trivial
    · simp only [corruptLoop, if_neg h]
      rw [ih (pos + 1)]
      constructor
      · rintro ⟨i, hi, hlt⟩
        refine ⟨i + 1, Nat.succ_lt_succ hi, ?_⟩
        have : pos + 1 + i = pos + (i + 1) := by omega
        rwa [this] at hlt
      · rintro ⟨i, hi, hlt⟩
        cases i with
        | zero => exact absurd (by simpa using hlt) h
        | succ j =>
          refine ⟨j, Nat.lt_of_succ_lt_succ hi, ?_⟩
          have : pos + (j + 1) = pos + 1 + j := by omega
          rwa [this] at hlt

theorem corruptLoop_false_pos (ber : ℚ) (stream : Nat → ℚ) :
    ∀ (n pos : Nat),
      (corruptLoop ber stream pos n).1 = false →
        (corruptLoop ber stream pos n).2 = pos + n := by
  intro n
  induction n with
  | zero =>
    intro pos _
    simp [corruptLoop]
  | succ k ih =>
    intro pos h
    by_cases hd : stream pos < ber
    · simp [corruptLoop, if_pos hd] at h
    · simp only [corruptLoop, if_neg hd] at h ⊢
      have := ih (pos + 1) h
      omega

theorem corruptLoop_true_pos (ber : ℚ) (stream : Nat → ℚ) :
    ∀ (n pos : Nat),
      (corruptLoop ber stream pos n).1 = true →
        ∃ j, j < n ∧ stream (pos + j) < ber ∧
          (∀ k, k < j → ¬ stream (pos + k) < ber) ∧
          (corruptLoop ber stream pos n).2 = pos + j + 1 := by
  intro n
  induction n with
  | zero =>
    intro pos h
    simp [corruptLoop] at h
  | succ k ih =>
    intro pos h
    by_cases hd : stream pos < ber
    · refine ⟨0, Nat.succ_pos k, by simpa using hd, ?_, ?_⟩
      · intro j hj
        omega
      · simp [corruptLoop, if_pos hd]
    · simp only [corruptLoop, if_neg hd] at h ⊢
      obtain ⟨j, hj, hlt, hmin, hpos⟩ := ih (pos + 1) h
      refine ⟨j + 1, Nat.succ_lt_succ hj, ?_, ?_, ?_⟩
      · have : pos + (j + 1) = pos + 1 + j := by omega
        rwa [this]
      · intro i hi
        cases i with
        | zero => simpa using hd
        | succ l =>
          have : pos + (l + 1) = pos + 1 + l := by omega
          rw [this]
          exact hmin l (Nat.lt_of_succ_lt_succ hi)
      · omega

theorem corruptLoop_head (ber : ℚ) (stream : Nat → ℚ) (pos n : Nat)
    (h : stream pos < ber) :
    corruptLoop ber stream pos (n + 1) = (true, pos + 1) := by
  simp [corruptLoop, if_pos h]

-- ------------------ claims about DoCorrupt ------------------

/-- C1 (counterexample): the claim quantifies over EVERY packet size `s` and
asserts `s * 8` trials, but the source computes `bits = GetSize () * 8` in
unsigned 32-bit arithmetic.  At `s = 2^29` bytes with `ber = 1` and every
draw equal to 0 (so every one of the claimed `s * 8` trials would succeed),
`DoCorrupt` nevertheless returns `false`: the 32-bit product wraps to 0 and
no trial is run. -/
theorem DoCorrupt_trials_overflow_cex :
    (DoCorrupt ⟨1, 25⟩ (2 ^ 29) (fun _ => (0 : ℚ)) 0).1 = false ∧
    (0 : ℚ) < 1 ∧ 0 < 2 ^ 29 * 8 := by
  refine ⟨?_, by norm_num, by norm_num⟩
  have h : bitsOf (2 ^ 29) = 0 := by decide
  show (corruptLoop (1 : ℚ) (fun _ => (0 : ℚ)) 0 (bitsOf (2 ^ 29))).1 = false
  rw [h]
  rfl

/-- C1 (amended): `DoCorrupt` treats the packet as `(s * 8) mod 2^32`
independent Bernoulli trials (the trial count is computed in unsigned 32-bit
arithmetic), drawing one uniform value per trial in sequence, and returns
`true` if and only if at least one drawn value is strictly below the
configured bit-error-rate. -/
theorem DoCorrupt_true_iff_exists_trial (m : OpticalErrorModel) (s : Nat)
    (stream : Nat → ℚ) (pos : Nat) :
    (DoCorrupt m s stream pos).1 = true ↔
      ∃ i, i < (s * 8) % 2 ^ 32 ∧ stream (pos + i) < m.m_ber :=
  corruptLoop_true_iff m.m_ber stream (bitsOf s) pos

/-- C2 (counterexample): the claim asserts `DoCorrupt` returns `true` for
`ber = 1` and EVERY packet size `> 0`, but at `s = 2^29 > 0` the 32-bit
trial count wraps to 0 and the result is `false` (draws here are the valid
uniform value 1/2). -/
theorem DoCorrupt_ber_one_pow29_cex :
    0 < 2 ^ 29 ∧ (DoCorrupt ⟨1, 30⟩ (2 ^ 29) (fun _ => (1 : ℚ) / 2) 0).1 = false := by
  refine ⟨by norm_num, ?_⟩
  have h : bitsOf (2 ^ 29) = 0 := by decide
  show (corruptLoop (1 : ℚ) (fun _ => (1 : ℚ) / 2) 0 (bitsOf (2 ^ 29))).1 = false
  rw [h]
  rfl

/-- C2 (amended): with bit-error-rate 1, for every packet size whose 32-bit
trial count `(s * 8) mod 2^32` is nonzero (in particular every
`0 < s < 2^29`), `DoCorrupt` returns `true` on every invocation, for every
state of the random source whose draws lie in `[0, 1)`. -/
theorem DoCorrupt_ber_one_true (snr : ℚ) (s : Nat) (stream : Nat → ℚ)
    (pos : Nat) (hs : ∀ i, stream i < 1) (hbits : 0 < (s * 8) % 2 ^ 32) :
    (DoCorrupt ⟨1, snr⟩ s stream pos).1 = true :=
  (corruptLoop_true_iff 1 stream (bitsOf s) pos).mpr
    ⟨0, hbits, by simpa using hs pos⟩

/-- C2 witness: a 1-byte packet with `ber = 1` and all draws 1/2 is corrupted. -/
theorem DoCorrupt_ber_one_true_witness :
    (DoCorrupt ⟨1, 30⟩ 1 (fun _ => (1 : ℚ) / 2) 0).1 = true :=
  DoCorrupt_ber_one_true 30 1 (fun _ => (1 : ℚ) / 2) 0 (fun i => by norm_num)
    (by decide)

/-- C3: with bit-error-rate 0 `DoCorrupt` returns `false` for every packet
size and every random-source state with nonnegative draws (no draw can be
`< 0`), and with packet size 0 it returns `false` for every bit-error-rate
(zero trials). -/
theorem DoCorrupt_zero_ber_or_size_false (m : OpticalErrorModel) (s : Nat)
    (stream : Nat → ℚ) (pos : Nat) :
    (m.m_ber = 0 → (∀ i, 0 ≤ stream i) → (DoCorrupt m s stream pos).1 = false) ∧
    (s = 0 → (DoCorrupt m s stream pos).1 = false) := by
  constructor
  · intro hber hnn
    cases h : (DoCorrupt m s stream pos).1 with
    | false => rfl
    | true =>
      obtain ⟨i, _, hlt⟩ :=
        (corruptLoop_true_iff m.m_ber stream (bitsOf s) pos).mp h
      rw [hber] at hlt
      exact absurd hlt (not_lt.mpr (hnn (pos + i)))
  · intro hs
    subst hs
    rfl

/-- C3 witness: `ber = 0` on a 5-byte packet with draws 1/2, and `ber = 1`
on a 0-byte packet, both yield `false`. -/
theorem DoCorrupt_zero_ber_or_size_false_witness :
    (DoCorrupt ⟨0, 30⟩ 5 (fun _ => (1 : ℚ) / 2) 0).1 = false ∧
    (DoCorrupt ⟨1, 30⟩ 0 (fun _ => (1 : ℚ) / 2) 0).1 = false :=
  ⟨(DoCorrupt_zero_ber_or_size_false ⟨0, 30⟩ 5 (fun _ => (1 : ℚ) / 2) 0).1 rfl
      (fun i => by norm_num),
   (DoCorrupt_zero_ber_or_size_false ⟨1, 30⟩ 0 (fun _ => (1 : ℚ) / 2) 0).2 rfl⟩

/-- C4 (counterexample): the claim asserts exactly `s * 8` draws are consumed
regardless of outcome, but the loop returns `true` immediately on the first
successful trial: a 1-byte packet (`1 * 8 = 8` claimed draws) with `ber = 1`
and first draw 0 is corrupted after consuming exactly 1 draw. -/
theorem DoCorrupt_draws_cex :
    (DoCorrupt ⟨1, 30⟩ 1 (fun _ => (0 : ℚ)) 0).1 = true ∧
    (DoCorrupt ⟨1, 30⟩ 1 (fun _ => (0 : ℚ)) 0).2 = 1 ∧
    (DoCorrupt ⟨1, 30⟩ 1 (fun _ => (0 : ℚ)) 0).2 ≠ 1 * 8 := by
  refine ⟨?_, ?_, ?_⟩ <;> decide

/-- C4 (amended): an invocation on `s` bytes consumes exactly
`(s * 8) mod 2^32` draws when it returns `false` (not corrupted); when it
returns `true` it consumes `j + 1` draws, where `j` is the index of the
first trial whose draw is below the bit-error-rate.  (Consumed draws =
final cursor − initial cursor.) -/
theorem DoCorrupt_draws_consumed (m : OpticalErrorModel) (s : Nat)
    (stream : Nat → ℚ) (pos : Nat) :
    ((DoCorrupt m s stream pos).1 = false →
      (DoCorrupt m s stream pos).2 = pos + ((s * 8) % 2 ^ 32)) ∧
    ((DoCorrupt m s stream pos).1 = true →
      ∃ j, j < (s * 8) % 2 ^ 32 ∧ stream (pos + j) < m.m_ber ∧
        (∀ k, k < j → ¬ stream (pos + k) < m.m_ber) ∧
        (DoCorrupt m s stream pos).2 = pos + j + 1) :=
  ⟨corruptLoop_false_pos m.m_ber stream (bitsOf s) pos,
   corruptLoop_true_pos m.m_ber stream (bitsOf s) pos⟩

/-- C4 witness: with `ber = 0` and all draws 0 (no draw is `< 0`), a 1-byte
packet is not corrupted and the cursor advances by exactly `1 * 8 = 8`. -/
theorem DoCorrupt_draws_consumed_witness :
    (DoCorrupt ⟨0, 30⟩ 1 (fun _ => (0 : ℚ)) 0).2 = 0 + ((1 * 8) % 2 ^ 32) :=
  (DoCorrupt_draws_consumed ⟨0, 30⟩ 1 (fun _ => (0 : ℚ)) 0).1 (by decide)

-- ------------------ claims about the statistics reduction ------------------

/-- C5: throughput in Mbps equals `(rxBytes * 8 / duration) / 1e6` whenever
`duration = timeLastRx − timeFirstTx` is positive, and average delay equals
`delaySum / rxPackets` whenever `rxPackets` is positive; on the concrete
vector txPackets=100, rxPackets=100, rxBytes=102400, timeFirstTx=1.0,
timeLastRx=1.2, delaySum=20.0 the reduction yields throughput 4.096 Mbps and
average delay 0.2 s. -/
theorem flow_reduction_correct :
    (∀ f : FlowStats, 0 < flowDuration f →
      throughputMbps f = ((f.rxBytes : ℚ) * 8 / flowDuration f) / 1000000) ∧
    (∀ f : FlowStats, 0 < f.rxPackets →
      avgDelaySeconds f = f.delaySum / (f.rxPackets : ℚ)) ∧
    throughputMbps exampleFlow = 4096 / 1000 ∧
    avgDelaySeconds exampleFlow = 2 / 10 := by
  have hd : flowDuration exampleFlow = 1 / 5 := by
    norm_num [flowDuration, exampleFlow]
  refine ⟨fun f hf => if_pos hf, fun f hf => if_pos hf, ?_, ?_⟩
  · have h0 : (0 : ℚ) < flowDuration exampleFlow := by
      rw [hd]
      norm_num
    show (if 0 < flowDuration exampleFlow then
        ((exampleFlow.rxBytes : ℚ) * 8 / flowDuration exampleFlow) / 1000000
      else 0) = 4096 / 1000
    rw [if_pos h0, hd]
    norm_num [exampleFlow]
  · have h0 : 0 < exampleFlow.rxPackets := by
      norm_num [exampleFlow]
    show (if 0 < exampleFlow.rxPackets then
        exampleFlow.delaySum / (exampleFlow.rxPackets : ℚ)
      else 0) = 2 / 10
    rw [if_pos h0]
    norm_num [exampleFlow]

/-- C5 witness: the general reduction formulas applied to the concrete
example flow (duration `1/5 > 0`, `rxPackets = 100 > 0`). -/
theorem flow_reduction_correct_witness :
    throughputMbps exampleFlow =
      ((exampleFlow.rxBytes : ℚ) * 8 / flowDuration exampleFlow) / 1000000 ∧
    avgDelaySeconds exampleFlow = exampleFlow.delaySum / (exampleFlow.rxPackets : ℚ) :=
  ⟨flow_reduction_correct.1 exampleFlow (by norm_num [flowDuration, exampleFlow]),
   flow_reduction_correct.2.1 exampleFlow (by norm_num [exampleFlow])⟩

/-- C6: when the duration is not strictly positive the reported throughput
is 0, and when `rxPackets = 0` the reported average delay is 0 (the guarded
branches return the initialised `0.0`, no division is reached); every flow,
including one with zero receptions, still produces its report line. -/
theorem flow_reduction_guards (f : FlowStats) (flows : List FlowStats) :
    (flowDuration f ≤ 0 → throughputMbps f = 0) ∧
    (f.rxPackets = 0 → avgDelaySeconds f = 0) ∧
    (simulationReport flows).length = flows.length := by
  refine ⟨fun h => ?_, fun h => ?_, by simp [simulationReport]⟩
  · show (if 0 < flowDuration f then
        ((f.rxBytes : ℚ) * 8 / flowDuration f) / 1000000
      else 0) = 0
    rw [if_neg (not_lt.mpr h)]
  · show (if 0 < f.rxPackets then f.delaySum / (f.rxPackets : ℚ) else 0) = 0
    rw [h]
    rfl

/-- C6 witness: a flow with `rxPackets = 0` and `timeLastRx = timeFirstTx`
reports throughput 0 and average delay 0, and still contributes one report
line. -/
theorem flow_reduction_guards_witness :
    throughputMbps ⟨10, 0, 10, 0, 0, 1, 1⟩ = 0 ∧
    avgDelaySeconds ⟨10, 0, 10, 0, 0, 1, 1⟩ = 0 ∧
    (simulationReport [⟨10, 0, 10, 0, 0, 1, 1⟩]).length = 1 :=
  ⟨(flow_reduction_guards ⟨10, 0, 10, 0, 0, 1, 1⟩ []).1
      (by norm_num [flowDuration]),
   (flow_reduction_guards ⟨10, 0, 10, 0, 0, 1, 1⟩ []).2.1 rfl,
   (flow_reduction_guards ⟨10, 0, 10, 0, 0, 1, 1⟩ [⟨10, 0, 10, 0, 0, 1, 1⟩]).2.2⟩

-- ------------------ claims about configuration and instance isolation ------------------

/-- C7 (counterexample): the claim says a bit-error-rate outside [0,1] is
rejected by the setter; in the source `SetBer` is `{ m_ber = ber; }` — the
out-of-range value 2 is stored unchanged and is then used by `DoCorrupt`
(with `ber = 2` every draw, here 0, is below it, so a 1-byte packet is
corrupted). -/
theorem SetBer_out_of_range_stored_cex :
    (SetBer defaultModel 2).m_ber = 2 ∧
    ¬ ((SetBer defaultModel 2).m_ber ≤ 1) ∧
    (DoCorrupt (SetBer defaultModel 2) 1 (fun _ => (0 : ℚ)) 0).1 = true := by
  refine ⟨rfl, by norm_num [SetBer, defaultModel], ?_⟩
  exact (corruptLoop_true_iff 2 (fun _ => (0 : ℚ)) (bitsOf 1) 0).mpr
    ⟨0, by decide, by norm_num⟩

/-- C7 (amended): `SetBer` performs no validation: any value, including
values outside [0,1], is stored unchanged and subsequently used by
`DoCorrupt` — with a stored `ber > 1` every nonempty (1-byte) packet is
corrupted on the first draw, since uniform draws lie in `[0, 1)`.  No
configuration error is raised at setup time. -/
theorem SetBer_no_validation (m : OpticalErrorModel) (v : ℚ) (hv : 1 < v)
    (stream : Nat → ℚ) (pos : Nat) (hs : ∀ i, 0 ≤ stream i ∧ stream i < 1) :
    (SetBer m v).m_ber = v ∧ (DoCorrupt (SetBer m v) 1 stream pos).1 = true :=
  ⟨rfl,
   (corruptLoop_true_iff v stream (bitsOf 1) pos).mpr
     ⟨0, by decide, by simpa using lt_trans (hs pos).2 hv⟩⟩

/-- C7 witness: storing the out-of-range `ber = 2` into the default-constructed
model and corrupting a 1-byte packet whose draws are all 1/2. -/
theorem SetBer_no_validation_witness :
    (SetBer defaultModel 2).m_ber = 2 ∧
    (DoCorrupt (SetBer defaultModel 2) 1 (fun _ => (1 : ℚ) / 2) 0).1 = true :=
  SetBer_no_validation defaultModel 2 (by norm_num) (fun _ => (1 : ℚ) / 2) 0
    (fun i => by norm_num)

/-- C8: `DoCorrupt` is independent of the configured signal-to-noise ratio:
two models that differ only in `m_snrDb` (same `m_ber`, same packet size,
same random-source state) return identical corruption decisions and identical
final cursors (identical draws consumed); and `SetSnrDb` leaves `m_ber`
untouched. -/
theorem DoCorrupt_snr_independent (ber snr snr' : ℚ) (s : Nat)
    (stream : Nat → ℚ) (pos : Nat) :
    DoCorrupt ⟨ber, snr⟩ s stream pos = DoCorrupt ⟨ber, snr'⟩ s stream pos ∧
    (SetSnrDb ⟨ber, snr⟩ snr').m_ber = ber ∧
    DoCorrupt (SetSnrDb ⟨ber, snr⟩ snr') s stream pos =
      DoCorrupt ⟨ber, snr⟩ s stream pos :=
  ⟨rfl, rfl, rfl⟩

/-- C9 (counterexample): the claim says both instances consume one common
sequential stream.  Run instance 0 (`ber = 1`) then instance 1 (`ber = 1/2`)
on 1-byte packets with draws `streamS = 0, 9/10, 9/10, …`: under the
source's per-instance sources, instance 1 starts at its own cursor 0, reads
the draw 0 `< 1/2` and corrupts; under the claimed shared stream, instance 0
has already consumed that draw, so instance 1 reads only 9/10-draws and does
not corrupt.  The two semantics disagree, so the source does not implement
the shared stream. -/
theorem separate_vs_shared_stream_cex :
    (separateStreamRun ⟨1, 25⟩ ⟨1 / 2, 30⟩ 1 1 streamS streamS).2 = true ∧
    (specSharedStreamRun ⟨1, 25⟩ ⟨1 / 2, 30⟩ 1 1 streamS).2 = false := by
  constructor
  · show (DoCorrupt ⟨1 / 2, 30⟩ 1 streamS 0).1 = true
    exact (corruptLoop_true_iff (1 / 2) streamS (bitsOf 1) 0).mpr
      ⟨0, by decide, by norm_num [streamS]⟩
  · have h0 : DoCorrupt ⟨1, 25⟩ 1 streamS 0 = (true, 1) := by
      show corruptLoop (1 : ℚ) streamS 0 (bitsOf 1) = (true, 1)
      have hb : bitsOf 1 = 7 + 1 := by decide
      rw [hb, corruptLoop_head]
      norm_num [streamS]
    have h1 : (DoCorrupt ⟨1 / 2, 30⟩ 1 streamS 1).1 = false := by
      cases h : (DoCorrupt ⟨1 / 2, 30⟩ 1 streamS 1).1 with
      | false => rfl
      | true =>
        obtain ⟨i, _, hlt⟩ :=
          (corruptLoop_true_iff (1 / 2) streamS (bitsOf 1) 1).mp h
        have hne : 1 + i ≠ 0 := by omega
        rw [show streamS (1 + i) = 9 / 10 by simp [streamS, hne]] at hlt
        norm_num at hlt
    show (DoCorrupt ⟨1 / 2, 30⟩ 1 streamS (DoCorrupt ⟨1, 25⟩ 1 streamS 0).2).1 = false
    rw [h0]
    exact h1

/-- C9 (amended): each of the two Error Model instances holds its own
random source (its own `UniformRandomVariable`, created in the constructor):
instance 0's corruption decision does not depend on instance 1's stream, and
instance 1's decision does not depend on instance 0's stream — they share no
random state, so draws by one never consume values seen by the other. -/
theorem separateStreamRun_independent (m0 m1 : OpticalErrorModel) (s0 s1 : Nat)
    (stream0 stream1 stream0' stream1' : Nat → ℚ) :
    (separateStreamRun m0 m1 s0 s1 stream0 stream1).1 =
      (separateStreamRun m0 m1 s0 s1 stream0 stream1').1 ∧
    (separateStreamRun m0 m1 s0 s1 stream0 stream1).2 =
      (separateStreamRun m0 m1 s0 s1 stream0' stream1).2 :=
  ⟨rfl, rfl⟩

/-- C10: the trial count is `packetSize * 8` in unsigned 32-bit arithmetic,
i.e. `(s * 8) mod 2^32` for every `s`; in particular a packet of exactly
`2^29` bytes wraps to 0 trials, is never corrupted (for any configured
bit-error-rate, including 1), and consumes no draws. -/
theorem bits_overflow_mod32 :
    (∀ s : Nat, bitsOf s = (s * 8) % 2 ^ 32) ∧
    (∀ (m : OpticalErrorModel) (stream : Nat → ℚ) (pos : Nat),
      (DoCorrupt m (2 ^ 29) stream pos).1 = false ∧
      (DoCorrupt m (2 ^ 29) stream pos).2 = pos) := by
  refine ⟨fun s => rfl, fun m stream pos => ?_⟩
  have h : bitsOf (2 ^ 29) = 0 := by decide
  constructor
  · show (corruptLoop m.m_ber stream pos (bitsOf (2 ^ 29))).1 = false
    rw [h]
    rfl
  · show (corruptLoop m.m_ber stream pos (bitsOf (2 ^ 29))).2 = pos
    rw [h]
    rfl
